import Mathlib

/-!
# Three-digit code generator (`three/backend.c`)

A shallow embedding of the two functions of `backend.c`, `generate_otp` and
`main`, together with the parts of the C library they call (`time`, `srand`,
`rand`, `printf`), and the properties of the program stated in its
specification.

The C library is not part of the repository.  Its generator is a parameter of
the embedding (`Libc`); `printf` is modelled for the one conversion the
program uses, `%d`.
-/

namespace Backend

/-! ## C integer arithmetic -/

/-- Largest value of a 32-bit `int`. -/
def INT_MAX : Int := 2147483647

/-- Smallest value of a 32-bit `int`. -/
def INT_MIN : Int := -2147483648

/-- The value an `int` computation leaves in a 32-bit two's-complement
register: the exact result reduced modulo `2^32` into `[INT_MIN, INT_MAX]`. -/
def wrapInt (x : Int) : Int := (x + 2147483648) % 4294967296 - 2147483648

/-- Conversion of a `time_t` reading to the `unsigned int` parameter of
`srand`: reduction modulo `2^32`. -/
def toUnsigned (t : Int) : Nat := (t % 4294967296).toNat

/-- C `a % b` with its faults made explicit: `none` for a zero divisor and for
`INT_MIN % -1`, otherwise the remainder of the division truncated toward
zero. -/
def checked_rem (a b : Int) : Option Int :=
  if b = 0 then none
  else if a = INT_MIN ∧ b = -1 then none
  else some (Int.tmod a b)

/-- C `a + b` on `int` with overflow made explicit: `none` when the exact sum
does not fit in an `int`. -/
def checked_add (a b : Int) : Option Int :=
  if INT_MIN ≤ a + b ∧ a + b ≤ INT_MAX then some (a + b) else none

/-! ## The C library's generator and the process state -/

/-- The pseudo-random generator of the C library, as far as the program uses
it.  `G` is the type of the process-wide generator state. -/
structure Libc (G : Type) where
  /-- Largest value `rand` returns. -/
  RAND_MAX : Int
  /-- State left by `srand(seed)` when called in a given state. -/
  srand : Nat → G → G
  /-- One call of `rand()`: the value drawn and the state left behind. -/
  rand : G → Int × G

/-- The state after `srand(s)` depends on `s` alone, so that the sequence
drawn after `srand(s)` is a function of `s`. -/
def Libc.SeedDetermines {G : Type} (L : Libc G) : Prop :=
  ∀ (s : Nat) (g g' : G), L.srand s g = L.srand s g'

/-- What the program can observe and change: the clock, the generator state
and the text written to standard output so far. -/
structure World (G : Type) where
  /-- Value `time(NULL)` returns: seconds since the epoch. -/
  time : Int
  /-- Process-wide generator state. -/
  gen : G
  /-- Characters written to standard output so far. -/
  stdout : List Char

/-- The portable generator printed in the C standard (`RAND_MAX = 32767`,
state `next`, an unsigned 32-bit integer). -/
def sampleLibc : Libc Nat where
  RAND_MAX := 32767
  srand := fun seed _ => seed
  rand := fun next =>
    let next1 := (next * 1103515245 + 12345) % 4294967296
    (((next1 / 65536 % 32768 : Nat) : Int), next1)

/-! ## `printf` -/

/-- Character of a decimal digit `d < 10`. -/
def digitChar (d : Nat) : Char := Char.ofNat (48 + d)

/-- Decimal digits of a natural number, most significant first, no leading
zero (a single `0` for zero). -/
def natDigits (n : Nat) : List Char :=
  if n < 10 then [digitChar n] else natDigits (n / 10) ++ [digitChar (n % 10)]
termination_by n
decreasing_by omega

/-- Text produced by the `%d` conversion for an `int`. -/
def fmt_d : Int → List Char
  | Int.ofNat m => natDigits m
  | Int.negSucc m => '-' :: natDigits (m + 1)

/-- Text `printf` produces from a format and its `int` arguments, for the
directives `%d` and `%%`; every other character is copied. -/
def printf : List Char → List Int → List Char
  | '%' :: 'd' :: rest, a :: args => fmt_d a ++ printf rest args
  | '%' :: '%' :: rest, args => '%' :: printf rest args
  | c :: rest, args => c :: printf rest args
  | [], _ => []

/-! ## Reading a decimal numeral

The meaning of a decimal numeral, stated on its own: these definitions read a
text back to a number and use none of the printing functions above. -/

/-- Digit a character stands for: `0` to `9` for the characters `0` to `9`
(codes 48 to 57), `none` for every other character. -/
def digitValue (c : Char) : Option Nat :=
  if 48 ≤ c.toNat ∧ c.toNat ≤ 57 then some (c.toNat - 48) else none

/-- Positional value of a string of decimal digits read most significant
first, continuing from the value `acc` of the digits already read; `none`
when a character is not a digit. -/
def digitsValueFrom (acc : Nat) : List Char → Option Nat
  | [] => some acc
  | c :: cs =>
    match digitValue c with
    | some d => digitsValueFrom (10 * acc + d) cs
    | none => none

/-- Number a non-empty string of decimal digits denotes; `none` for the empty
string and for a string with a character that is not a digit. -/
def digitsValue (s : List Char) : Option Nat :=
  if s.isEmpty then none else digitsValueFrom 0 s

/-- Integer a decimal numeral denotes: a non-empty digit string, or `-`
followed by one; `none` for any other text. -/
def decimalValue : List Char → Option Int
  | [] => none
  | c :: cs =>
    if c = '-' then Option.map (fun n : Nat => -(n : Int)) (digitsValue cs)
    else Option.map (fun n : Nat => (n : Int)) (digitsValue (c :: cs))

/-- The numeral has no redundant character: it is `0`, or it starts with a
character other than `0`, after the sign `-` when it has one. -/
def numeralCanonical : List Char → Bool
  | [] => false
  | c :: cs =>
    if c = '-' then cs.head? != some '0'
    else (c :: cs) == ['0'] || c != '0'

/-! ## The program -/

/-- The expression `100 + (rand() % 900)` of `generate_otp` for the raw draw
`r`, in 32-bit `int` arithmetic. -/
def otp_of_draw (r : Int) : Int := wrapInt (100 + Int.tmod r 900)

/-- The same expression with every fault made explicit (`none` on a division
fault or an overflow). -/
def otp_of_draw_checked (r : Int) : Option Int :=
  (checked_rem r 900).bind (fun m => checked_add 100 m)

/-- Function `generate_otp`: `srand(time(NULL))`, one `rand()`, the range
mapping.  Returns the code and the world left behind. -/
def generate_otp {G : Type} (L : Libc G) (w : World G) : Int × World G :=
  let seeded := L.srand (toUnsigned w.time) w.gen
  let draw := L.rand seeded
  let otp := otp_of_draw draw.1
  (otp, { w with gen := draw.2 })

/-- Value the `rand()` call of `generate_otp` returns when the function runs
from `w`. -/
def raw_draw {G : Type} (L : Libc G) (w : World G) : Int :=
  (L.rand (L.srand (toUnsigned w.time) w.gen)).1

/-- Format string of the one `printf` call of `main`. -/
def main_format : List Char := "Your 3-digit OTP is: %d\n".toList

/-- Function `main`: returns the exit code and the world left behind. -/
def main {G : Type} (L : Libc G) (w : World G) : Int × World G :=
  let r := generate_otp L w
  let otp := r.1
  let w1 := r.2
  (0, { w1 with stdout := w1.stdout ++ printf main_format [otp] })

/-- Text a run of `main` from `w` adds to standard output. -/
def main_written {G : Type} (L : Libc G) (w : World G) : List Char :=
  (main L w).2.stdout.drop w.stdout.length

/-! ## Distribution of the range mapping -/

/-- Number of raw draws `r` in `0, ..., M - 1` that the range mapping of
`generate_otp` sends to `N`. -/
def preimage_count (M : Nat) (N : Int) : Nat :=
  Nat.count (fun r : Nat => otp_of_draw (r : Int) = N) M


/-! ## Arithmetic lemmas -/

theorem wrapInt_of_fits (x : Int) (h1 : INT_MIN ≤ x) (h2 : x ≤ INT_MAX) : wrapInt x = x := by
  unfold wrapInt
  unfold INT_MIN at h1
  unfold INT_MAX at h2
  omega

theorem tmod_900 (r : Int) (h : 0 ≤ r) : Int.tmod r 900 = r % 900 :=
  Int.tmod_eq_emod h (by decide)

theorem tmod_900_gt (r : Int) : -900 < Int.tmod r 900 := by
  cases r with
  | ofNat m =>
    have h : Int.tmod (Int.ofNat m) 900 = ((m % 900 : Nat) : Int) := rfl
    rw [h]
    omega
  | negSucc m =>
    have h : Int.tmod (Int.negSucc m) 900 = -(((m + 1) % 900 : Nat) : Int) := rfl
    rw [h]
    omega

theorem otp_of_draw_eq (r : Int) (h : 0 ≤ r) : otp_of_draw r = 100 + r % 900 := by
  unfold otp_of_draw
  rw [tmod_900 r h]
  unfold wrapInt
  omega

theorem otp_of_draw_bounds (r : Int) (h : 0 ≤ r) :
    100 ≤ otp_of_draw r ∧ otp_of_draw r ≤ 999 := by
  rw [otp_of_draw_eq r h]
  omega

theorem generate_otp_fst {G : Type} (L : Libc G) (w : World G) :
    (generate_otp L w).1 = otp_of_draw (raw_draw L w) := rfl

/-! ## Lemmas on the decimal rendering -/

theorem natDigits_lt (n : Nat) (h : n < 10) : natDigits n = [digitChar n] := by
  rw [natDigits]
  simp [h]

theorem natDigits_ge (n : Nat) (h : 10 ≤ n) :
    natDigits n = natDigits (n / 10) ++ [digitChar (n % 10)] := by
  rw [natDigits]
  simp [Nat.not_lt.mpr h]

theorem natDigits_three (n : Nat) (h1 : 100 ≤ n) (h2 : n ≤ 999) :
    natDigits n = [digitChar (n / 100), digitChar (n / 10 % 10), digitChar (n % 10)] := by
  rw [natDigits_ge n (by omega), natDigits_ge (n / 10) (by omega),
    natDigits_lt (n / 10 / 10) (by omega)]
  simp [Nat.div_div_eq_div_mul]

theorem digitChar_isDigit (d : Nat) (h : d < 10) : (digitChar d).isDigit = true := by
  interval_cases d <;> decide

theorem digitChar_ne_zero (d : Nat) (h0 : 0 < d) (h : d < 10) : digitChar d ≠ '0' := by
  interval_cases d <;> decide

theorem natDigits_isDigit (n : Nat) : ∀ c ∈ natDigits n, c.isDigit = true := by
  induction n using Nat.strong_induction_on with
  | _ n ih =>
    intro c hc
    by_cases h : n < 10
    · rw [natDigits_lt n h] at hc
      simp only [List.mem_singleton] at hc
      subst hc
      exact digitChar_isDigit n h
    · rw [natDigits_ge n (by omega), List.mem_append, List.mem_singleton] at hc
      rcases hc with hc | hc
      · exact ih (n / 10) (by omega) c hc
      · subst hc
        exact digitChar_isDigit (n % 10) (Nat.mod_lt n (by decide))

theorem fmt_d_no_newline (x : Int) : ∀ c ∈ fmt_d x, c ≠ '\n' := by
  intro c hc hn
  subst hn
  cases x with
  | ofNat m =>
    have := natDigits_isDigit m _ hc
    revert this
    decide
  | negSucc m =>
    simp only [fmt_d, List.mem_cons] at hc
    rcases hc with hc | hc
    · revert hc
      decide
    · have := natDigits_isDigit (m + 1) _ hc
      revert this
      decide

theorem digitValue_digitChar (d : Nat) (h : d < 10) : digitValue (digitChar d) = some d := by
  interval_cases d <;> decide

theorem digitsValueFrom_append (acc : Nat) (xs : List Char) (c : Char) :
    digitsValueFrom acc (xs ++ [c])
      = (digitsValueFrom acc xs).bind (fun v => (digitValue c).map (fun d => 10 * v + d)) := by
  induction xs generalizing acc with
  | nil =>
    show digitsValueFrom acc [c] = (digitValue c).map (fun d => 10 * acc + d)
    unfold digitsValueFrom
    cases digitValue c with
    | none => rfl
    | some d => rfl
  | cons x xs ih =>
    show digitsValueFrom acc (x :: (xs ++ [c])) = _
    unfold digitsValueFrom
    cases digitValue x with
    | none => rfl
    | some d => exact ih (10 * acc + d)

theorem digitsValueFrom_natDigits (n : Nat) : digitsValueFrom 0 (natDigits n) = some n := by
  induction n using Nat.strong_induction_on with
  | _ n ih =>
    by_cases h : n < 10
    · rw [natDigits_lt n h]
      unfold digitsValueFrom
      rw [digitValue_digitChar n h]
      show some (10 * 0 + n) = some n
      rw [Nat.mul_zero, Nat.zero_add]
    · rw [natDigits_ge n (by omega), digitsValueFrom_append, ih (n / 10) (by omega),
        digitValue_digitChar (n % 10) (Nat.mod_lt n (by decide))]
      show some (10 * (n / 10) + n % 10) = some n
      rw [Nat.div_add_mod]

theorem natDigits_ne_nil (n : Nat) : natDigits n ≠ [] := by
  by_cases h : n < 10
  · rw [natDigits_lt n h]
    exact List.cons_ne_nil _ _
  · rw [natDigits_ge n (by omega)]
    exact List.append_ne_nil_of_right_ne_nil _ (List.cons_ne_nil _ _)

theorem natDigits_head (n : Nat) (h0 : 0 < n) : (natDigits n).head? ≠ some '0' := by
  induction n using Nat.strong_induction_on with
  | _ n ih =>
    by_cases h : n < 10
    · rw [natDigits_lt n h]
      intro hc
      exact digitChar_ne_zero n h0 h (Option.some.inj hc)
    · rw [natDigits_ge n (by omega)]
      cases hd : natDigits (n / 10) with
      | nil => exact absurd hd (natDigits_ne_nil _)
      | cons c cs =>
        have := ih (n / 10) (by omega) (by omega)
        rw [hd] at this
        exact this

theorem digitsValue_natDigits (n : Nat) : digitsValue (natDigits n) = some n := by
  have hne : ¬ (natDigits n).isEmpty = true := by
    rw [List.isEmpty_iff]
    exact natDigits_ne_nil n
  unfold digitsValue
  rw [if_neg hne, digitsValueFrom_natDigits]

theorem decimalValue_fmt_d (N : Int) : decimalValue (fmt_d N) = some N := by
  cases N with
  | ofNat m =>
    show decimalValue (natDigits m) = some (Int.ofNat m)
    cases hd : natDigits m with
    | nil => exact absurd hd (natDigits_ne_nil m)
    | cons c cs =>
      have hc : c ≠ '-' := by
        intro hc
        have hdig := natDigits_isDigit m c (by rw [hd]; exact List.mem_cons_self _ _)
        rw [hc] at hdig
        revert hdig
        decide
      simp only [decimalValue]
      rw [if_neg hc, ← hd, digitsValue_natDigits]
      rfl
  | negSucc m =>
    show decimalValue ('-' :: natDigits (m + 1)) = some (Int.negSucc m)
    simp only [decimalValue]
    rw [if_pos trivial, digitsValue_natDigits]
    rfl

theorem numeralCanonical_fmt_d (N : Int) : numeralCanonical (fmt_d N) = true := by
  cases N with
  | ofNat m =>
    show numeralCanonical (natDigits m) = true
    by_cases h0 : m = 0
    · subst h0
      rw [natDigits_lt 0 (by decide)]
      decide
    · have hh := natDigits_head m (by omega)
      cases hd : natDigits m with
      | nil => exact absurd hd (natDigits_ne_nil m)
      | cons c cs =>
        rw [hd] at hh
        have hc0 : c ≠ '0' := fun h => hh (by rw [h]; rfl)
        have hc : c ≠ '-' := by
          intro hc
          have hdig := natDigits_isDigit m c (by rw [hd]; exact List.mem_cons_self _ _)
          rw [hc] at hdig
          revert hdig
          decide
        simp only [numeralCanonical]
        rw [if_neg hc]
        simp [hc0]
  | negSucc m =>
    show numeralCanonical ('-' :: natDigits (m + 1)) = true
    have hh := natDigits_head (m + 1) (by omega)
    simp only [numeralCanonical]
    rw [if_pos trivial]
    simpa using hh

theorem printf_main_format (otp : Int) :
    printf main_format [otp] = "Your 3-digit OTP is: ".toList ++ fmt_d otp ++ ['\n'] := by
  simp [main_format, printf]


theorem stdout_main {G : Type} (L : Libc G) (w : World G) :
    (main L w).2.stdout
      = w.stdout ++ ("Your 3-digit OTP is: ".toList ++ fmt_d (generate_otp L w).1 ++ ['\n']) := by
  show w.stdout ++ printf main_format [(generate_otp L w).1] = _
  rw [printf_main_format]

theorem main_written_eq {G : Type} (L : Libc G) (w : World G) :
    main_written L w
      = "Your 3-digit OTP is: ".toList ++ fmt_d (generate_otp L w).1 ++ ['\n'] := by
  unfold main_written
  rw [stdout_main]
  simp

theorem sampleLibc_seedDetermines : sampleLibc.SeedDetermines := by
  intro s g g'
  rfl

/-! ## Counting lemmas -/

theorem otp_of_draw_eq_iff (r : Nat) (N : Int) (h1 : 100 ≤ N) (h2 : N ≤ 999) :
    otp_of_draw (r : Int) = N ↔ r ≡ (N - 100).toNat [MOD 900] := by
  rw [otp_of_draw_eq (r : Int) (Int.natCast_nonneg r)]
  unfold Nat.ModEq
  omega

theorem preimage_count_formula (M : Nat) (N : Int) (h1 : 100 ≤ N) (h2 : N ≤ 999) :
    preimage_count M N = M / 900 + if N - 100 < ((M % 900 : Nat) : Int) then 1 else 0 := by
  unfold preimage_count
  rw [Nat.count_eq_card_filter_range]
  have hcongr : Finset.filter (fun r : Nat => otp_of_draw (r : Int) = N) (Finset.range M)
      = Finset.filter (fun r : Nat => r ≡ (N - 100).toNat [MOD 900]) (Finset.range M) := by
    apply Finset.filter_congr
    intro r _
    exact otp_of_draw_eq_iff r N h1 h2
  have key := @Nat.count_modEq_card M 900 (by decide) (N - 100).toNat
  rw [Nat.count_eq_card_filter_range] at key
  rw [hcongr, key]
  congr 1
  have hv : (N - 100).toNat % 900 = (N - 100).toNat := Nat.mod_eq_of_lt (by omega)
  rw [hv]
  by_cases h : N - 100 < ((M % 900 : Nat) : Int)
  · rw [if_pos h, if_pos (by omega)]
  · rw [if_neg h, if_neg (by omega)]


/-! ## Properties of the program -/

/-- C1: whenever the raw draw `r` made inside `generate_otp` lies in
`[0, RAND_MAX]`, the value `generate_otp` returns lies in `[100, 999]`, for
every clock reading and every prior generator state of the world `w`. -/
theorem generate_otp_in_range {G : Type} (L : Libc G) (w : World G) (r : Int)
    (hdraw : raw_draw L w = r) (h0 : 0 ≤ r) (_hmax : r ≤ L.RAND_MAX) :
    (generate_otp L w).1 = otp_of_draw r ∧
      100 ≤ (generate_otp L w).1 ∧ (generate_otp L w).1 ≤ 999 := by
  rw [generate_otp_fst, hdraw]
  exact ⟨rfl, otp_of_draw_bounds r h0⟩

theorem generate_otp_in_range_witness :
    raw_draw sampleLibc ⟨1700000000, 1, []⟩ = 7723 ∧ (0 : Int) ≤ 7723 ∧
      (7723 : Int) ≤ sampleLibc.RAND_MAX ∧
      ((generate_otp sampleLibc ⟨1700000000, 1, []⟩).1 = otp_of_draw 7723 ∧
        100 ≤ (generate_otp sampleLibc ⟨1700000000, 1, []⟩).1 ∧
        (generate_otp sampleLibc ⟨1700000000, 1, []⟩).1 ≤ 999) :=
  ⟨by decide, by decide, by decide,
    generate_otp_in_range sampleLibc ⟨1700000000, 1, []⟩ 7723 (by decide) (by decide)
      (by decide)⟩

/-- C2: for a non-negative raw draw `r`, `generate_otp` returns exactly
`100 + (r mod 900)`; for the raw draw 850 that value is 950 and the text
`main` prints is the line `Your 3-digit OTP is: 950`. -/
theorem generate_otp_value {G : Type} (L : Libc G) (w : World G) (r : Int)
    (hdraw : raw_draw L w = r) (h0 : 0 ≤ r) :
    (generate_otp L w).1 = 100 + r % 900 ∧
      (r = 850 → (generate_otp L w).1 = 950 ∧
        main_written L w = "Your 3-digit OTP is: 950\n".toList) := by
  have hv : (generate_otp L w).1 = 100 + r % 900 := by
    rw [generate_otp_fst, hdraw, otp_of_draw_eq r h0]
  refine ⟨hv, ?_⟩
  intro h850
  subst h850
  have h950 : (generate_otp L w).1 = 950 := by rw [hv]; decide
  refine ⟨h950, ?_⟩
  rw [main_written_eq, h950]
  have hd : fmt_d 950 = ['9', '5', '0'] := by
    show natDigits 950 = _
    rw [natDigits_three 950 (by decide) (by decide)]
    decide
  rw [hd]
  decide

theorem generate_otp_value_witness :
    raw_draw sampleLibc ⟨1866825037, 1, []⟩ = 850 ∧ (0 : Int) ≤ 850 ∧
      ((generate_otp sampleLibc ⟨1866825037, 1, []⟩).1 = 100 + 850 % 900 ∧
        ((850 : Int) = 850 → (generate_otp sampleLibc ⟨1866825037, 1, []⟩).1 = 950 ∧
          main_written sampleLibc ⟨1866825037, 1, []⟩ = "Your 3-digit OTP is: 950\n".toList)) :=
  ⟨by decide, by decide,
    generate_otp_value sampleLibc ⟨1866825037, 1, []⟩ 850 (by decide) (by decide)⟩

/-- C3: for a value `N` that `generate_otp` returns on a raw draw in
`[0, RAND_MAX]`, the `%d` rendering of `N` has exactly three characters, all
of them decimal digits, carries no sign, and does not start with `0`. -/
theorem fmt_d_three_digits {G : Type} (L : Libc G) (w : World G) (N : Int)
    (hN : (generate_otp L w).1 = N)
    (h0 : 0 ≤ raw_draw L w) (_hmax : raw_draw L w ≤ L.RAND_MAX) :
    (fmt_d N).length = 3 ∧ (∀ c ∈ fmt_d N, c.isDigit = true) ∧
      '-' ∉ fmt_d N ∧ '+' ∉ fmt_d N ∧
      (∃ c, (fmt_d N).head? = some c ∧ c ≠ '0') := by
  have hb := otp_of_draw_bounds (raw_draw L w) h0
  rw [← generate_otp_fst, hN] at hb
  obtain ⟨n, rfl⟩ : ∃ n : Nat, N = (n : Int) := ⟨N.toNat, by omega⟩
  have h1 : 100 ≤ n := by omega
  have h2 : n ≤ 999 := by omega
  have hfmt : fmt_d (n : Int) = natDigits n := rfl
  have hdig : ∀ c ∈ fmt_d (n : Int), c.isDigit = true := by
    rw [hfmt]
    exact natDigits_isDigit n
  refine ⟨?_, hdig, ?_, ?_, ?_⟩
  · rw [hfmt, natDigits_three n h1 h2]
    rfl
  · intro hc
    have := hdig _ hc
    revert this
    decide
  · intro hc
    have := hdig _ hc
    revert this
    decide
  · rw [hfmt, natDigits_three n h1 h2]
    exact ⟨digitChar (n / 100), rfl, digitChar_ne_zero (n / 100) (by omega) (by omega)⟩

theorem fmt_d_three_digits_witness :
    (generate_otp sampleLibc ⟨1700000000, 1, []⟩).1 = 623 ∧
      0 ≤ raw_draw sampleLibc ⟨1700000000, 1, []⟩ ∧
      raw_draw sampleLibc ⟨1700000000, 1, []⟩ ≤ sampleLibc.RAND_MAX ∧
      ((fmt_d 623).length = 3 ∧ (∀ c ∈ fmt_d 623, c.isDigit = true) ∧
        '-' ∉ fmt_d 623 ∧ '+' ∉ fmt_d 623 ∧
        (∃ c, (fmt_d 623).head? = some c ∧ c ≠ '0')) :=
  ⟨by decide, by decide, by decide,
    fmt_d_three_digits sampleLibc ⟨1700000000, 1, []⟩ 623 (by decide) (by decide)
      (by decide)⟩


/-- C4: the text `main` adds to standard output is the prefix
`Your 3-digit OTP is: `, then a numeral, then one newline.  The numeral is
the decimal numeral of the value `generate_otp` returned: read back as a
decimal number (`decimalValue`) it denotes exactly that value, and it has no
redundant leading zero.  Nothing precedes the prefix, nothing follows the
newline, and the newline is the only one, so the text is exactly one line. -/
theorem main_output_line {G : Type} (L : Libc G) (w : World G) :
    (∃ numeral : List Char,
        (main L w).2.stdout
          = w.stdout ++ ("Your 3-digit OTP is: ".toList ++ numeral ++ ['\n']) ∧
        main_written L w = "Your 3-digit OTP is: ".toList ++ numeral ++ ['\n'] ∧
        decimalValue numeral = some (generate_otp L w).1 ∧
        numeralCanonical numeral = true ∧
        (∀ c ∈ numeral, c ≠ '\n') ∧
        numeral = fmt_d (generate_otp L w).1) ∧
      (main L w).2.stdout
        = w.stdout ++ ("Your 3-digit OTP is: ".toList ++ fmt_d (generate_otp L w).1 ++ ['\n']) ∧
      main_written L w
        = "Your 3-digit OTP is: ".toList ++ fmt_d (generate_otp L w).1 ++ ['\n'] ∧
      (main_written L w).count '\n' = 1 ∧
      (main_written L w).getLast? = some '\n' := by
  refine ⟨⟨fmt_d (generate_otp L w).1, stdout_main L w, main_written_eq L w,
    decimalValue_fmt_d _, numeralCanonical_fmt_d _, fmt_d_no_newline _, rfl⟩,
    stdout_main L w, main_written_eq L w, ?_, ?_⟩
  · rw [main_written_eq, List.count_append, List.count_append,
      List.count_eq_zero.mpr (fun h => fmt_d_no_newline _ _ h rfl)]
    decide
  · rw [main_written_eq]
    exact List.getLast?_concat _

/-- C5: when the state left by `srand(s)` depends on `s` alone, two calls of
`generate_otp` that read the same clock second return the same value and
leave the same generator state, whatever the generator states before the
calls; two runs of `main` then print the same text. -/
theorem generate_otp_deterministic {G : Type} (L : Libc G) (w1 w2 : World G)
    (hseed : L.SeedDetermines) (hsame : w1.time = w2.time) :
    (generate_otp L w1).1 = (generate_otp L w2).1 ∧
      (generate_otp L w1).2.gen = (generate_otp L w2).2.gen ∧
      main_written L w1 = main_written L w2 := by
  have hs : L.srand (toUnsigned w1.time) w1.gen = L.srand (toUnsigned w2.time) w2.gen := by
    rw [hsame]
    exact hseed _ _ _
  have hv : (generate_otp L w1).1 = (generate_otp L w2).1 := by
    show otp_of_draw (L.rand (L.srand (toUnsigned w1.time) w1.gen)).1
      = otp_of_draw (L.rand (L.srand (toUnsigned w2.time) w2.gen)).1
    rw [hs]
  refine ⟨hv, ?_, ?_⟩
  · show (L.rand (L.srand (toUnsigned w1.time) w1.gen)).2
      = (L.rand (L.srand (toUnsigned w2.time) w2.gen)).2
    rw [hs]
  · rw [main_written_eq, main_written_eq, hv]

theorem generate_otp_deterministic_witness :
    sampleLibc.SeedDetermines ∧
      (⟨1700000000, 1, []⟩ : World Nat).time = (⟨1700000000, 42, ['x']⟩ : World Nat).time ∧
      ((generate_otp sampleLibc ⟨1700000000, 1, []⟩).1
          = (generate_otp sampleLibc ⟨1700000000, 42, ['x']⟩).1 ∧
        (generate_otp sampleLibc ⟨1700000000, 1, []⟩).2.gen
          = (generate_otp sampleLibc ⟨1700000000, 42, ['x']⟩).2.gen ∧
        main_written sampleLibc ⟨1700000000, 1, []⟩
          = main_written sampleLibc ⟨1700000000, 42, ['x']⟩) :=
  ⟨sampleLibc_seedDetermines, rfl,
    generate_otp_deterministic sampleLibc ⟨1700000000, 1, []⟩ ⟨1700000000, 42, ['x']⟩
      sampleLibc_seedDetermines rfl⟩

/-- C6: `main` returns exit code 0 from every world and for every C library
generator, and the arithmetic of `generate_otp` yields a value (no fault) for
whatever `rand` returns. -/
theorem main_exit_zero {G : Type} (L : Libc G) (w : World G) :
    (main L w).1 = 0 ∧
      otp_of_draw_checked (raw_draw L w) = some (100 + Int.tmod (raw_draw L w) 900) := by
  refine ⟨rfl, ?_⟩
  generalize raw_draw L w = r
  have hlt : Int.tmod r 900 < 900 := Int.tmod_lt_of_pos r (by decide)
  have hgt : -900 < Int.tmod r 900 := tmod_900_gt r
  unfold otp_of_draw_checked checked_rem checked_add INT_MIN INT_MAX
  simp only [Option.bind]
  rw [if_neg (by decide), if_neg (by omega)]
  simp only []
  rw [if_pos (by omega)]


/-- C7: over the generator range `0, ..., M - 1` every output `N` of
`[100, 999]` has `M / 900` or `M / 900 + 1` raw preimages under the range
mapping; the outputs `100, ..., 99 + M mod 900` have the larger count and the
others the smaller; all 900 outputs have the same count exactly when 900
divides `M`, and two outputs differ in count exactly when it does not.  For
`M = 32768` the outputs `100..467` have 37 preimages and `468..999` have
36. -/
theorem preimage_count_distribution :
    (∀ (M : Nat) (N : Int), 100 ≤ N → N ≤ 99 + ((M % 900 : Nat) : Int) →
        preimage_count M N = M / 900 + 1) ∧
      (∀ (M : Nat) (N : Int), 100 + ((M % 900 : Nat) : Int) ≤ N → N ≤ 999 →
        preimage_count M N = M / 900) ∧
      (∀ (M : Nat) (N : Int), 100 ≤ N → N ≤ 999 →
        preimage_count M N = M / 900 ∨ preimage_count M N = M / 900 + 1) ∧
      (∀ M : Nat,
        (∀ N N' : Int, 100 ≤ N → N ≤ 999 → 100 ≤ N' → N' ≤ 999 →
          preimage_count M N = preimage_count M N') ↔ 900 ∣ M) ∧
      (∀ M : Nat,
        (∃ N N' : Int, 100 ≤ N ∧ N ≤ 999 ∧ 100 ≤ N' ∧ N' ≤ 999 ∧
          preimage_count M N ≠ preimage_count M N') ↔ ¬ 900 ∣ M) ∧
      (∀ N : Int, 100 ≤ N → N ≤ 467 → preimage_count 32768 N = 37) ∧
      (∀ N : Int, 468 ≤ N → N ≤ 999 → preimage_count 32768 N = 36) := by
  have hlarge : ∀ (M : Nat) (N : Int), 100 ≤ N → N ≤ 99 + ((M % 900 : Nat) : Int) →
      preimage_count M N = M / 900 + 1 := by
    intro M N h1 h2
    rw [preimage_count_formula M N h1 (by omega), if_pos (by omega)]
  have hsmall : ∀ (M : Nat) (N : Int), 100 + ((M % 900 : Nat) : Int) ≤ N → N ≤ 999 →
      preimage_count M N = M / 900 := by
    intro M N h1 h2
    rw [preimage_count_formula M N (by omega) h2, if_neg (by omega), Nat.add_zero]
  have huniform : ∀ M : Nat,
      (∀ N N' : Int, 100 ≤ N → N ≤ 999 → 100 ≤ N' → N' ≤ 999 →
        preimage_count M N = preimage_count M N') ↔ 900 ∣ M := by
    intro M
    constructor
    · intro h
      by_contra hdvd
      have hmod : 0 < M % 900 := by omega
      have h100 := hlarge M 100 (by decide) (by omega)
      have h999 := hsmall M 999 (by omega) (by decide)
      have := h 100 999 (by decide) (by decide) (by decide) (by decide)
      omega
    · intro hdvd N N' h1 h2 h3 h4
      have hmod : M % 900 = 0 := Nat.mod_eq_zero_of_dvd hdvd
      rw [hsmall M N (by omega) h2, hsmall M N' (by omega) h4]
  refine ⟨hlarge, hsmall, ?_, huniform, ?_, ?_, ?_⟩
  · intro M N h1 h2
    by_cases h : N ≤ 99 + ((M % 900 : Nat) : Int)
    · exact Or.inr (hlarge M N h1 h)
    · exact Or.inl (hsmall M N (by omega) h2)
  · intro M
    rw [← huniform M]
    constructor
    · rintro ⟨N, N', h1, h2, h3, h4, hne⟩ h
      exact hne (h N N' h1 h2 h3 h4)
    · intro h
      by_contra hex
      apply h
      intro N N' h1 h2 h3 h4
      by_contra hne
      exact hex ⟨N, N', h1, h2, h3, h4, hne⟩
  · intro N h1 h2
    exact hlarge 32768 N h1 (by omega)
  · intro N h1 h2
    exact hsmall 32768 N (by omega) h2

theorem preimage_count_distribution_witness :
    preimage_count 1000 150 = 2 ∧ preimage_count 1000 250 = 1 ∧
      preimage_count 32768 467 = 37 ∧ preimage_count 32768 468 = 36 :=
  ⟨preimage_count_distribution.1 1000 150 (by decide) (by decide),
    preimage_count_distribution.2.1 1000 250 (by decide) (by decide),
    preimage_count_distribution.2.2.2.2.2.1 467 (by decide) (by decide),
    preimage_count_distribution.2.2.2.2.2.2 468 (by decide) (by decide)⟩

/-- C8: when `RAND_MAX` is at least 899, an integer `N` is the range mapping
of some raw draw `r` with `0 ≤ r ≤ RAND_MAX` exactly when `100 ≤ N ≤ 999`:
every code of the range is attainable and nothing else is. -/
theorem otp_attainable (RAND_MAX : Int) (N : Int) (hR : 899 ≤ RAND_MAX) :
    (100 ≤ N ∧ N ≤ 999) ↔ ∃ r : Int, 0 ≤ r ∧ r ≤ RAND_MAX ∧ otp_of_draw r = N := by
  constructor
  · rintro ⟨h1, h2⟩
    refine ⟨N - 100, by omega, by omega, ?_⟩
    rw [otp_of_draw_eq (N - 100) (by omega)]
    omega
  · rintro ⟨r, h0, _, rfl⟩
    exact otp_of_draw_bounds r h0

theorem otp_attainable_witness :
    (899 : Int) ≤ 32767 ∧
      (((100 : Int) ≤ 999 ∧ (999 : Int) ≤ 999) ↔
        ∃ r : Int, 0 ≤ r ∧ r ≤ 32767 ∧ otp_of_draw r = 999) :=
  ⟨by decide, otp_attainable 32767 999 (by decide)⟩

/-- C9: for a raw draw `r` with `0 ≤ r ≤ INT_MAX` the arithmetic of
`generate_otp` is safe: `r % 900` does not fault and lies in `[0, 899]`, the
sum `100 + r % 900` is at most 999 and fits in an `int`, the fault-checking
evaluation yields it, and the wrapped 32-bit result is the exact integer
result. -/
theorem otp_arith_safe (r : Int) (h0 : 0 ≤ r) (_hmax : r ≤ INT_MAX) :
    checked_rem r 900 = some (Int.tmod r 900) ∧
      0 ≤ Int.tmod r 900 ∧ Int.tmod r 900 ≤ 899 ∧
      100 + Int.tmod r 900 ≤ 999 ∧ (999 : Int) ≤ INT_MAX ∧
      checked_add 100 (Int.tmod r 900) = some (100 + Int.tmod r 900) ∧
      otp_of_draw_checked r = some (100 + Int.tmod r 900) ∧
      otp_of_draw r = 100 + Int.tmod r 900 ∧
      wrapInt (100 + Int.tmod r 900) = 100 + Int.tmod r 900 := by
  have ht := tmod_900 r h0
  have hlo : 0 ≤ Int.tmod r 900 := by rw [ht]; omega
  have hhi : Int.tmod r 900 ≤ 899 := by rw [ht]; omega
  have hrem : checked_rem r 900 = some (Int.tmod r 900) := by
    unfold checked_rem
    rw [if_neg (by decide), if_neg (by omega)]
  have hadd : checked_add 100 (Int.tmod r 900) = some (100 + Int.tmod r 900) := by
    unfold checked_add INT_MIN INT_MAX
    rw [if_pos (by omega)]
  have hwrap : wrapInt (100 + Int.tmod r 900) = 100 + Int.tmod r 900 :=
    wrapInt_of_fits _ (by unfold INT_MIN; omega) (by unfold INT_MAX; omega)
  refine ⟨hrem, hlo, hhi, by omega, by decide, hadd, ?_, hwrap, hwrap⟩
  unfold otp_of_draw_checked
  rw [hrem]
  exact hadd

theorem otp_arith_safe_witness :
    (0 : Int) ≤ 2147483647 ∧ (2147483647 : Int) ≤ INT_MAX ∧
      (checked_rem 2147483647 900 = some (Int.tmod 2147483647 900) ∧
        0 ≤ Int.tmod 2147483647 900 ∧ Int.tmod 2147483647 900 ≤ 899 ∧
        100 + Int.tmod 2147483647 900 ≤ 999 ∧ (999 : Int) ≤ INT_MAX ∧
        checked_add 100 (Int.tmod 2147483647 900) = some (100 + Int.tmod 2147483647 900) ∧
        otp_of_draw_checked 2147483647 = some (100 + Int.tmod 2147483647 900) ∧
        otp_of_draw 2147483647 = 100 + Int.tmod 2147483647 900 ∧
        wrapInt (100 + Int.tmod 2147483647 900) = 100 + Int.tmod 2147483647 900) :=
  ⟨by decide, by decide, otp_arith_safe 2147483647 (by decide) (by decide)⟩

end Backend
